import Mathlib

/-!
# Verification of the graph-storage schema layer (`app/models.py`)

The repository under verification consists of a single declarative file,
`app/models.py`: SQLModel table models (`Graph`, `Node`, `Edge`) and
non-persisted transfer schemas (`GraphInput`, `NodeCreate`, ...).

This development embeds, shallowly:

* the persisted row types with the field types declared in the source
  (`Dict[str, Any]` JSON maps become `Json` association lists, the
  `Decimal(max_digits=12, decimal_places=6)` columns become scaled
  integers, Python `float` fields become exact rationals `PyFloat`,
  `datetime` columns become abstract ticks `Nat`);
* the relational semantics that the declarations induce: insert and
  delete operations that enforce exactly the declared primary keys,
  foreign keys and cascade options (`cascade_delete=True` is declared
  only on `Graph.nodes` and `Graph.edges`; the edge-to-node foreign keys
  `Edge.source_node_id` / `Edge.target_node_id` declare no delete
  action, hence restrict the deletion of referenced rows);
* a `Reachable` predicate: the database states produced by any sequence
  of these operations starting from the empty database.  The `*Update`
  schemas expose neither primary keys nor `graph_id`, so updates cannot
  affect any of the key/reference invariants studied below and are not
  part of the step relation;
* the validation-only transfer schemas with their declared optionality,
  defaults and `max_length` bounds (validated by SQLModel/pydantic for
  the `table=False` schemas).

The request handlers of the application (create-from-JSON, export,
partial update application) are not part of the repository; where a
claim needs them they are modelled from the spec and marked as such.
-/

/-- JSON-compatible values, the contents of the `Dict[str, Any]` columns
(`properties`, `style`, `data`).  Numbers are modelled as exact
rationals; objects and arrays keep insertion order, as Python dicts and
lists do. -/
inductive Json where
  | null : Json
  | bool : Bool → Json
  | num : Rat → Json
  | str : String → Json
  | arr : List Json → Json
  | obj : List (String × Json) → Json


/-- A `Dict[str, Any]` value: a JSON object given as an association list. -/
abbrev Dict := List (String × Json)

/-- Python `float` fields of the transfer schemas, modelled as exact
rationals; no claim below depends on binary rounding behaviour. -/
abbrev PyFloat := Rat

/-- A value of the declared column type `Decimal(max_digits=12,
decimal_places=6)` (`Node.x`, `Node.y`, `Edge.weight`): an integer count
of millionths whose decimal representation has at most 12 digits. -/
abbrev Decimal126 := { m : Int // m.natAbs < 10 ^ 12 }

/-- The exact rational value of a stored decimal. -/
def Decimal126.toRat (d : Decimal126) : Rat := (d.val : Rat) / (10 ^ 6 : Rat)

/-- Row of table `graphs` (model `Graph` in `models.py`). -/
structure Graph where
  id : Nat
  name : String
  description : String := ""
  created_at : Nat := 0
  updated_at : Nat := 0
  properties : Dict := []


/-- Row of table `nodes` (model `Node` in `models.py`). -/
structure Node where
  id : Nat
  graph_id : Nat
  node_id : String
  label : String := ""
  x : Option Decimal126 := none
  y : Option Decimal126 := none
  style : Dict := []
  data : Dict := []
  created_at : Nat := 0


/-- Row of table `edges` (model `Edge` in `models.py`). -/
structure Edge where
  id : Nat
  graph_id : Nat
  edge_id : Option String := none
  source_node_id : Nat
  target_node_id : Nat
  label : String := ""
  weight : Option Decimal126 := none
  style : Dict := []
  data : Dict := []
  created_at : Nat := 0


/-- A database state: the three tables declared in `models.py`. -/
structure DBState where
  graphs : List Graph
  nodes : List Node
  edges : List Edge


/-- The empty database. -/
def DBState.empty : DBState := ⟨[], [], []⟩

/-- Insert a `graphs` row.  The only declared constraint is the primary
key `id`. -/
def insertGraph (st : DBState) (g : Graph) : Option DBState :=
  if ∃ g0 ∈ st.graphs, g0.id = g.id then none
  else some { st with graphs := st.graphs ++ [g] }

/-- Insert a `nodes` row.  Declared constraints: primary key `id` and
the foreign key `graph_id → graphs.id`.  `node_id` is indexed
(`index=True`) but carries no uniqueness constraint in `models.py`. -/
def insertNode (st : DBState) (n : Node) : Option DBState :=
  if ∃ n0 ∈ st.nodes, n0.id = n.id then none
  else if ∃ g ∈ st.graphs, g.id = n.graph_id then
    some { st with nodes := st.nodes ++ [n] }
  else none

/-- Insert an `edges` row.  Declared constraints: primary key `id`,
foreign keys `graph_id → graphs.id`, `source_node_id → nodes.id`,
`target_node_id → nodes.id`.  `models.py` declares no constraint tying
the endpoint nodes' `graph_id` to the edge's `graph_id`. -/
def insertEdge (st : DBState) (e : Edge) : Option DBState :=
  if ∃ e0 ∈ st.edges, e0.id = e.id then none
  else if (∃ g ∈ st.graphs, g.id = e.graph_id) ∧
          (∃ n ∈ st.nodes, n.id = e.source_node_id) ∧
          (∃ n ∈ st.nodes, n.id = e.target_node_id) then
    some { st with edges := st.edges ++ [e] }
  else none

/-- Delete a `graphs` row.  `Graph.nodes` and `Graph.edges` declare
`cascade_delete=True` (`models.py` lines 23-24), so all nodes and edges
with the deleted graph's id are removed with it.  The edge-to-node
foreign keys declare no delete action, so the deletion is rejected if an
edge that survives the cascade still references a node removed by it. -/
def deleteGraph (st : DBState) (gid : Nat) : Option DBState :=
  if ∃ g ∈ st.graphs, g.id = gid then
    if ∀ e ∈ st.edges.filter (fun e0 : Edge => decide (e0.graph_id ≠ gid)),
        ∀ n ∈ st.nodes, n.graph_id = gid →
          e.source_node_id ≠ n.id ∧ e.target_node_id ≠ n.id then
      some ⟨st.graphs.filter (fun g0 => decide (g0.id ≠ gid)),
            st.nodes.filter (fun n0 => decide (n0.graph_id ≠ gid)),
            st.edges.filter (fun e0 => decide (e0.graph_id ≠ gid))⟩
    else none
  else none

/-- Delete a `nodes` row.  The foreign keys `Edge.source_node_id` and
`Edge.target_node_id` declare no delete action (no `cascade_delete`, no
`ON DELETE` option), so a node still referenced by an edge cannot be
deleted; edges are never removed by this operation. -/
def deleteNode (st : DBState) (nid : Nat) : Option DBState :=
  if ∃ n ∈ st.nodes, n.id = nid then
    if ∀ e ∈ st.edges, e.source_node_id ≠ nid ∧ e.target_node_id ≠ nid then
      some { st with nodes := st.nodes.filter (fun n => decide (n.id ≠ nid)) }
    else none
  else none

/-- Delete an `edges` row.  Nothing references edges, so no check. -/
def deleteEdge (st : DBState) (eid : Nat) : Option DBState :=
  if ∃ e ∈ st.edges, e.id = eid then
    some { st with edges := st.edges.filter (fun e => decide (e.id ≠ eid)) }
  else none

/-- Database states reachable from the empty database by the operations
the declared schema admits. -/
inductive Reachable : DBState → Prop where
  | empty : Reachable DBState.empty
  | step_insertGraph {st g st'} : Reachable st → insertGraph st g = some st' →
      Reachable st'
  | step_insertNode {st n st'} : Reachable st → insertNode st n = some st' →
      Reachable st'
  | step_insertEdge {st e st'} : Reachable st → insertEdge st e = some st' →
      Reachable st'
  | step_deleteGraph {st gid st'} : Reachable st → deleteGraph st gid = some st' →
      Reachable st'
  | step_deleteNode {st nid st'} : Reachable st → deleteNode st nid = some st' →
      Reachable st'
  | step_deleteEdge {st eid st'} : Reachable st → deleteEdge st eid = some st' →
      Reachable st'

/-! ## Transfer schemas (`table=False` models, validated by pydantic) -/

/-- Schema for node data in JSON input (`NodeData` in `models.py`).
Field defaults are the declared `Field(default=...)` values. -/
structure NodeData where
  id : String
  label : Option String := none
  x : Option PyFloat := none
  y : Option PyFloat := none
  style : Option Dict := none
  data : Option Dict := none

/-- Schema for edge data in JSON input (`EdgeData` in `models.py`). -/
structure EdgeData where
  id : Option String := none
  source : String
  target : String
  label : Option String := none
  weight : Option PyFloat := none
  style : Option Dict := none
  data : Option Dict := none

/-- Schema for complete graph JSON input (`GraphInput` in `models.py`).
The declared defaults: `name="Untitled Graph"`, `description=""`,
`nodes=[]`, `edges=[]`, `properties=None`. -/
structure GraphInput where
  name : Option String := some "Untitled Graph"
  description : Option String := some ""
  nodes : List NodeData := []
  edges : List EdgeData := []
  properties : Option Dict := none

/-- `GraphInput` built with every field omitted: all defaults apply. -/
def GraphInput.empty : GraphInput := {}

/-- Schema for creating a new graph (`GraphCreate` in `models.py`). -/
structure GraphCreate where
  name : String
  description : String := ""
  properties : Dict := []

/-- Schema for updating an existing graph (`GraphUpdate`): every field
optional with default `None`. -/
structure GraphUpdate where
  name : Option String := none
  description : Option String := none
  properties : Option Dict := none

/-- `GraphUpdate` with every field omitted. -/
def GraphUpdate.empty : GraphUpdate := {}

/-- Schema for creating a new node (`NodeCreate` in `models.py`). -/
structure NodeCreate where
  graph_id : Nat
  node_id : String
  label : String := ""
  x : Option PyFloat := none
  y : Option PyFloat := none
  style : Dict := []
  data : Dict := []

/-- Schema for updating an existing node (`NodeUpdate`): every field
optional with default `None`. -/
structure NodeUpdate where
  label : Option String := none
  x : Option PyFloat := none
  y : Option PyFloat := none
  style : Option Dict := none
  data : Option Dict := none

/-- `NodeUpdate` with every field omitted. -/
def NodeUpdate.empty : NodeUpdate := {}

/-- Schema for creating a new edge (`EdgeCreate` in `models.py`). -/
structure EdgeCreate where
  graph_id : Nat
  edge_id : Option String := none
  source_node_id : Nat
  target_node_id : Nat
  label : String := ""
  weight : Option PyFloat := none
  style : Dict := []
  data : Dict := []

/-- Schema for updating an existing edge (`EdgeUpdate`): every field
optional with default `None`. -/
structure EdgeUpdate where
  label : Option String := none
  weight : Option PyFloat := none
  style : Option Dict := none
  data : Option Dict := none

/-- `EdgeUpdate` with every field omitted. -/
def EdgeUpdate.empty : EdgeUpdate := {}

/-- Schema for node data output (`NodeResponse` in `models.py`). -/
structure NodeResponse where
  id : Nat
  node_id : String
  label : String
  x : Option PyFloat
  y : Option PyFloat
  style : Dict
  data : Dict
  created_at : String

/-- Schema for edge data output (`EdgeResponse` in `models.py`). -/
structure EdgeResponse where
  id : Nat
  edge_id : Option String
  source_node_id : Nat
  target_node_id : Nat
  label : String
  weight : Option PyFloat
  style : Dict
  data : Dict
  created_at : String

/-- Schema for exporting complete graph data (`GraphExport`): nodes and
edges are emitted as plain JSON objects (`List[Dict[str, Any]]`). -/
structure GraphExport where
  name : String
  description : String
  properties : Dict
  nodes : List Dict
  edges : List Dict

/-! ## Validation

pydantic validates the `table=False` schemas on construction; the only
declared constraints are the `max_length` bounds, so a schema instance
is valid exactly when every string field respects its declared bound. -/

/-- An optional string respects a length bound (`None` passes). -/
def optLenLe (limit : Nat) (s : Option String) : Bool :=
  match s with
  | none => true
  | some s => s.length ≤ limit

/-- Declared bounds of `NodeData`: `id ≤ 100`, `label ≤ 200`. -/
def NodeData.isValid (d : NodeData) : Bool :=
  d.id.length ≤ 100 && optLenLe 200 d.label

/-- Declared bounds of `EdgeData`: `id ≤ 100`, `source ≤ 100`,
`target ≤ 100`, `label ≤ 200`. -/
def EdgeData.isValid (e : EdgeData) : Bool :=
  optLenLe 100 e.id && e.source.length ≤ 100 && e.target.length ≤ 100 &&
    optLenLe 200 e.label

/-- Declared bounds of `GraphInput`: `name ≤ 200`, `description ≤ 1000`,
and every nested node and edge valid. -/
def GraphInput.isValid (g : GraphInput) : Bool :=
  optLenLe 200 g.name && optLenLe 1000 g.description &&
    g.nodes.all NodeData.isValid && g.edges.all EdgeData.isValid

/-- Declared bounds of `GraphCreate`: `name ≤ 200`, `description ≤ 1000`. -/
def GraphCreate.isValid (g : GraphCreate) : Bool :=
  g.name.length ≤ 200 && g.description.length ≤ 1000

/-- Declared bounds of `NodeCreate`: `node_id ≤ 100`, `label ≤ 200`. -/
def NodeCreate.isValid (c : NodeCreate) : Bool :=
  c.node_id.length ≤ 100 && c.label.length ≤ 200

/-- Declared bounds of `GraphUpdate`. -/
def GraphUpdate.isValid (u : GraphUpdate) : Bool :=
  optLenLe 200 u.name && optLenLe 1000 u.description

/-! ## Partial update application and import/export

The request handlers that apply the update schemas and that implement
the JSON import/export round trip are not part of the repository (spec
section 1 lists route handlers as out of scope); they are modelled from
the spec here. -/

/-- Modelled from the spec: the graph update handler (not in `src/`).
Spec section 4.1 leaves update operations implicit; an omitted
(`None`) field of `GraphUpdate` denotes no change. -/
def applyGraphUpdate (g : Graph) (u : GraphUpdate) : Graph :=
  { g with name := u.name.getD g.name,
           description := u.description.getD g.description,
           properties := u.properties.getD g.properties }

/-- Modelled from the spec: the node update handler (not in `src/`),
acting on the API view of a node; an omitted field denotes no change. -/
def applyNodeUpdate (n : NodeResponse) (u : NodeUpdate) : NodeResponse :=
  { n with label := u.label.getD n.label,
           x := u.x.or n.x, y := u.y.or n.y,
           style := u.style.getD n.style, data := u.data.getD n.data }

/-- Modelled from the spec: the edge update handler (not in `src/`);
an omitted field denotes no change. -/
def applyEdgeUpdate (e : EdgeResponse) (u : EdgeUpdate) : EdgeResponse :=
  { e with label := u.label.getD e.label,
           weight := u.weight.or e.weight,
           style := u.style.getD e.style, data := u.data.getD e.data }

/-- Modelled from the spec: conversion of a float coordinate/weight to
the stored `Decimal(12,6)` column (spec section 9 asks for an
explicitly-scaled fixed-point value): round to 6 decimal places, `none`
if the result exceeds 12 digits. -/
def quantize6 (q : PyFloat) : Option Decimal126 :=
  let m : Int := ⌊q * 1000000 + 1 / 2⌋
  if h : m.natAbs < 10 ^ 12 then some ⟨m, h⟩ else none

/-- The `nodes` row a `NodeData` entry maps onto (graph primary key 1,
node primary keys assigned consecutively from 1): `node_id` from `id`,
omitted `label`/`style`/`data` fall back to the column defaults. -/
def nodeRowOf (pk : Nat) (d : NodeData) : Node :=
  { id := pk, graph_id := 1, node_id := d.id, label := d.label.getD "",
    x := d.x.bind quantize6, y := d.y.bind quantize6,
    style := d.style.getD [], data := d.data.getD [] }

/-- Node rows for a node list, primary keys `k+1, k+2, ...`. -/
def mkNodeRows : Nat → List NodeData → List Node
  | _, [] => []
  | k, d :: ds => nodeRowOf (k + 1) d :: mkNodeRows (k + 1) ds

/-- The `edges` row an `EdgeData` entry maps onto: the string `source` /
`target` node identifiers are resolved to the primary keys of the first
nodes carrying them. -/
def edgeRowOf (nds : List NodeData) (pk : Nat) (e : EdgeData) : Edge :=
  { id := pk, graph_id := 1, edge_id := e.id,
    source_node_id := nds.findIdx (fun d => d.id == e.source) + 1,
    target_node_id := nds.findIdx (fun d => d.id == e.target) + 1,
    label := e.label.getD "", weight := e.weight.bind quantize6,
    style := e.style.getD [], data := e.data.getD [] }

/-- Edge rows for an edge list, primary keys `k+1, k+2, ...`. -/
def mkEdgeRows (nds : List NodeData) : Nat → List EdgeData → List Edge
  | _, [] => []
  | k, e :: es => edgeRowOf nds (k + 1) e :: mkEdgeRows nds (k + 1) es

/-- Modelled from the spec: the JSON import handler (not in `src/`).
Spec sections 2 and 8: a validated `GraphInput` is mapped onto one
`Graph` row and its `Node` and `Edge` rows; an edge whose `source` or
`target` names no node in the input is a referential-integrity error. -/
def importGraph (gin : GraphInput) : Option DBState :=
  if (∀ e ∈ gin.edges, (∃ d ∈ gin.nodes, d.id = e.source) ∧
        (∃ d ∈ gin.nodes, d.id = e.target)) then
    some ⟨[{ id := 1, name := gin.name.getD "Untitled Graph",
             description := gin.description.getD "",
             properties := gin.properties.getD [] }],
          mkNodeRows 0 gin.nodes, mkEdgeRows gin.nodes 0 gin.edges⟩
  else none

/-- An optional string as a JSON value (`None` becomes `null`). -/
def optStrJson : Option String → Json
  | none => Json.null
  | some s => Json.str s

/-- An optional stored decimal as a JSON number (`None` becomes `null`). -/
def optDecJson : Option Decimal126 → Json
  | none => Json.null
  | some d => Json.num d.toRat

/-- The JSON object `GraphExport` emits for one node row. -/
def exportNodeDict (n : Node) : Dict :=
  [("id", Json.str n.node_id), ("label", Json.str n.label),
   ("x", optDecJson n.x), ("y", optDecJson n.y),
   ("style", Json.obj n.style), ("data", Json.obj n.data)]

/-- The user-facing `node_id` of the node row with primary key `pk`. -/
def lookupNodeId (rows : List Node) (pk : Nat) : String :=
  ((rows.find? (fun m => m.id == pk)).map (fun m => m.node_id)).getD ""

/-- The JSON object `GraphExport` emits for one edge row: the endpoint
primary keys are resolved back to user-facing node identifiers. -/
def exportEdgeDict (rows : List Node) (e : Edge) : Dict :=
  [("id", optStrJson e.edge_id),
   ("source", Json.str (lookupNodeId rows e.source_node_id)),
   ("target", Json.str (lookupNodeId rows e.target_node_id)),
   ("label", Json.str e.label), ("weight", optDecJson e.weight),
   ("style", Json.obj e.style), ("data", Json.obj e.data)]

/-- Modelled from the spec: the export handler (not in `src/`), shaping
a single-graph database state into a `GraphExport`. -/
def exportGraph (st : DBState) : Option GraphExport :=
  match st.graphs with
  | [g] => some ⟨g.name, g.description, g.properties,
                 st.nodes.map exportNodeDict,
                 st.edges.map (exportEdgeDict st.nodes)⟩
  | _ => none

/-- Field access in an exported JSON object. -/
def dictGet (d : Dict) (k : String) : Option Json :=
  (d.find? (fun p => p.1 == k)).map (fun p => p.2)

/-- The user-facing fields of an exported node object: identifier,
label, data map. -/
def nodeDictView (nd : Dict) : Option Json × Option Json × Option Json :=
  (dictGet nd "id", dictGet nd "label", dictGet nd "data")

/-- The same fields as carried by a `NodeData` input entry (omitted
label and data fall back to the column defaults `""` and `{}`). -/
def nodeDataView (d : NodeData) : Option Json × Option Json × Option Json :=
  (some (Json.str d.id), some (Json.str (d.label.getD "")),
   some (Json.obj (d.data.getD [])))

/-- The user-facing fields of an exported edge object: identifier,
source, target, label, data map. -/
def edgeDictView (ed : Dict) :
    Option Json × Option Json × Option Json × Option Json × Option Json :=
  (dictGet ed "id", dictGet ed "source", dictGet ed "target",
   dictGet ed "label", dictGet ed "data")

/-- The same fields as carried by an `EdgeData` input entry. -/
def edgeDataView (e : EdgeData) :
    Option Json × Option Json × Option Json × Option Json × Option Json :=
  (some (optStrJson e.id), some (Json.str e.source), some (Json.str e.target),
   some (Json.str (e.label.getD "")), some (Json.obj (e.data.getD [])))

/-! ## Concrete rows and states used in witnesses and counterexamples

`stW` realises the example of spec section 8: graph `G1`, nodes
`n1` / `n2`, one edge from `n1` to `n2` with weight `1.5`. -/

/-- The string `xx...x` of length `k`. -/
def longStr (k : Nat) : String := String.mk (List.replicate k 'x')

/-- The stored decimal `1.500000`. -/
def d15 : Decimal126 := ⟨1500000, by norm_num⟩

/-- Graph row `G1` with primary key 1. -/
def gRow : Graph := { id := 1, name := "G1" }

/-- Second graph row `G2`, primary key 2. -/
def gRow2 : Graph := { id := 2, name := "G2" }

/-- Node `n1` of graph 1, with position `(1.5, 1.5)`. -/
def nRow1 : Node :=
  { id := 1, graph_id := 1, node_id := "n1", label := "A",
    x := some d15, y := some d15 }

/-- Node `n2` of graph 1. -/
def nRow2 : Node := { id := 2, graph_id := 1, node_id := "n2", label := "B" }

/-- A node of graph 2, primary key 3. -/
def nRowX : Node := { id := 3, graph_id := 2, node_id := "m1" }

/-- A second node of graph 1 that reuses the user-facing identifier
`n1` under a fresh primary key. -/
def nDup : Node := { id := 4, graph_id := 1, node_id := "n1", label := "C" }

/-- Edge of graph 1 from node 1 to node 2, weight `1.5`. -/
def eRow : Edge :=
  { id := 1, graph_id := 1, source_node_id := 1, target_node_id := 2,
    weight := some d15 }

/-- An edge recorded under graph 1 whose target node belongs to
graph 2. -/
def eCross : Edge :=
  { id := 2, graph_id := 1, source_node_id := 1, target_node_id := 3 }

/-- The state of the spec section 8 example. -/
def stW : DBState := ⟨[gRow], [nRow1, nRow2], [eRow]⟩

/-- `stW` plus a second graph, a node in it, and an edge of graph 1
whose target is that node of graph 2. -/
def stCross : DBState := ⟨[gRow, gRow2], [nRow1, nRow2, nRowX], [eRow, eCross]⟩

/-- `stW` plus a second node of graph 1 with the duplicate user-facing
identifier `n1`. -/
def stDup : DBState := ⟨[gRow], [nRow1, nRow2, nDup], [eRow]⟩

/-- `stW` without its edge. -/
def stN : DBState := ⟨[gRow], [nRow1, nRow2], []⟩

/-- The JSON input of the spec section 8 example: graph `G1`, nodes
`n1` / `n2`, one edge `n1 → n2` with weight `1.5`. -/
def ginW : GraphInput :=
  { name := some "G1",
    nodes := [{ id := "n1", label := some "A" },
              { id := "n2", label := some "B" }],
    edges := [{ source := "n1", target := "n2",
                weight := some (3 / 2 : Rat) }] }

theorem insertGraph_eq_some {st : DBState} {g : Graph} {st' : DBState}
    (h : insertGraph st g = some st') :
    (¬ ∃ g0 ∈ st.graphs, g0.id = g.id) ∧
    st' = { st with graphs := st.graphs ++ [g] } := by
  unfold insertGraph at h
  split_ifs at h with h1
  exact ⟨h1, (Option.some.inj h).symm⟩

theorem insertNode_eq_some {st : DBState} {n : Node} {st' : DBState}
    (h : insertNode st n = some st') :
    (¬ ∃ n0 ∈ st.nodes, n0.id = n.id) ∧ (∃ g ∈ st.graphs, g.id = n.graph_id) ∧
    st' = { st with nodes := st.nodes ++ [n] } := by
  unfold insertNode at h
  split_ifs at h with h1 h2
  exact ⟨h1, h2, (Option.some.inj h).symm⟩

theorem insertEdge_eq_some {st : DBState} {e : Edge} {st' : DBState}
    (h : insertEdge st e = some st') :
    (¬ ∃ e0 ∈ st.edges, e0.id = e.id) ∧
    (∃ g ∈ st.graphs, g.id = e.graph_id) ∧
    (∃ n ∈ st.nodes, n.id = e.source_node_id) ∧
    (∃ n ∈ st.nodes, n.id = e.target_node_id) ∧
    st' = { st with edges := st.edges ++ [e] } := by
  unfold insertEdge at h
  split_ifs at h with h1 h2
  exact ⟨h1, h2.1, h2.2.1, h2.2.2, (Option.some.inj h).symm⟩

theorem deleteGraph_eq_some {st : DBState} {gid : Nat} {st' : DBState}
    (h : deleteGraph st gid = some st') :
    (∃ g ∈ st.graphs, g.id = gid) ∧
    (∀ e ∈ st.edges.filter (fun e0 : Edge => decide (e0.graph_id ≠ gid)),
      ∀ n ∈ st.nodes, n.graph_id = gid →
        e.source_node_id ≠ n.id ∧ e.target_node_id ≠ n.id) ∧
    st' = ⟨st.graphs.filter (fun g0 => decide (g0.id ≠ gid)),
           st.nodes.filter (fun n0 => decide (n0.graph_id ≠ gid)),
           st.edges.filter (fun e0 => decide (e0.graph_id ≠ gid))⟩ := by
  unfold deleteGraph at h
  split_ifs at h with h1 h2
  exact ⟨h1, h2, (Option.some.inj h).symm⟩

theorem deleteNode_eq_some {st : DBState} {nid : Nat} {st' : DBState}
    (h : deleteNode st nid = some st') :
    (∃ n ∈ st.nodes, n.id = nid) ∧
    (∀ e ∈ st.edges, e.source_node_id ≠ nid ∧ e.target_node_id ≠ nid) ∧
    st' = { st with nodes := st.nodes.filter (fun n0 => decide (n0.id ≠ nid)) } := by
  unfold deleteNode at h
  split_ifs at h with h1 h2
  exact ⟨h1, h2, (Option.some.inj h).symm⟩

theorem deleteEdge_eq_some {st : DBState} {eid : Nat} {st' : DBState}
    (h : deleteEdge st eid = some st') :
    (∃ e ∈ st.edges, e.id = eid) ∧
    st' = { st with edges := st.edges.filter (fun e0 => decide (e0.id ≠ eid)) } := by
  unfold deleteEdge at h
  split_ifs at h with h1
  exact ⟨h1, (Option.some.inj h).symm⟩

/-! ## Key and reference integrity -/

/-- The integrity that the declared schema maintains: distinct primary
keys in each table, and every declared foreign key resolves. -/
def GoodState (st : DBState) : Prop :=
  (st.graphs.map Graph.id).Nodup ∧
  (st.nodes.map Node.id).Nodup ∧
  (st.edges.map Edge.id).Nodup ∧
  (∀ n ∈ st.nodes, ∃ g ∈ st.graphs, g.id = n.graph_id) ∧
  (∀ e ∈ st.edges, ∃ g ∈ st.graphs, g.id = e.graph_id) ∧
  (∀ e ∈ st.edges,
    (∃ n ∈ st.nodes, n.id = e.source_node_id) ∧
    (∃ n ∈ st.nodes, n.id = e.target_node_id))

theorem goodState_empty : GoodState DBState.empty := by
  refine ⟨?_, ?_, ?_, ?_, ?_, ?_⟩ <;> simp [DBState.empty]

theorem goodState_insertGraph {st : DBState} {g : Graph} {st' : DBState}
    (hg : GoodState st) (h : insertGraph st g = some st') : GoodState st' := by
  obtain ⟨hfresh, rfl⟩ := insertGraph_eq_some h
  obtain ⟨g1, g2, g3, g4, g5, g6⟩ := hg
  have hid : g.id ∉ st.graphs.map Graph.id := by
    intro hmem
    rw [List.mem_map] at hmem
    obtain ⟨g0, hg0, hide⟩ := hmem
    exact hfresh ⟨g0, hg0, hide⟩
  refine ⟨?_, g2, g3, ?_, ?_, g6⟩
  · simp only [List.map_append, List.map_cons, List.map_nil, List.nodup_append]
    exact ⟨g1, List.nodup_singleton _, by simp [hid]⟩
  · intro n hn
    obtain ⟨g0, hg0, he⟩ := g4 n hn
    exact ⟨g0, List.mem_append_left _ hg0, he⟩
  · intro e he
    obtain ⟨g0, hg0, heq⟩ := g5 e he
    exact ⟨g0, List.mem_append_left _ hg0, heq⟩

theorem goodState_insertNode {st : DBState} {n : Node} {st' : DBState}
    (hg : GoodState st) (h : insertNode st n = some st') : GoodState st' := by
  obtain ⟨hfresh, hfk, rfl⟩ := insertNode_eq_some h
  obtain ⟨g1, g2, g3, g4, g5, g6⟩ := hg
  have hid : n.id ∉ st.nodes.map Node.id := by
    intro hmem
    rw [List.mem_map] at hmem
    obtain ⟨n0, hn0, hide⟩ := hmem
    exact hfresh ⟨n0, hn0, hide⟩
  refine ⟨g1, ?_, g3, ?_, g5, ?_⟩
  · simp only [List.map_append, List.map_cons, List.map_nil, List.nodup_append]
    exact ⟨g2, List.nodup_singleton _, by simp [hid]⟩
  · intro n0 hn0
    rw [List.mem_append] at hn0
    rcases hn0 with hn0 | hn0
    · exact g4 n0 hn0
    · rw [List.mem_singleton] at hn0
      subst hn0
      exact hfk
  · intro e he
    obtain ⟨⟨ns, hns, hseq⟩, ⟨nt, hnt, hteq⟩⟩ := g6 e he
    exact ⟨⟨ns, List.mem_append_left _ hns, hseq⟩,
           ⟨nt, List.mem_append_left _ hnt, hteq⟩⟩

theorem goodState_insertEdge {st : DBState} {e : Edge} {st' : DBState}
    (hg : GoodState st) (h : insertEdge st e = some st') : GoodState st' := by
  obtain ⟨hfresh, hfkg, hfks, hfkt, rfl⟩ := insertEdge_eq_some h
  obtain ⟨g1, g2, g3, g4, g5, g6⟩ := hg
  have hid : e.id ∉ st.edges.map Edge.id := by
    intro hmem
    rw [List.mem_map] at hmem
    obtain ⟨e0, he0, hide⟩ := hmem
    exact hfresh ⟨e0, he0, hide⟩
  refine ⟨g1, g2, ?_, g4, ?_, ?_⟩
  · simp only [List.map_append, List.map_cons, List.map_nil, List.nodup_append]
    exact ⟨g3, List.nodup_singleton _, by simp [hid]⟩
  · intro e0 he0
    rw [List.mem_append] at he0
    rcases he0 with he0 | he0
    · exact g5 e0 he0
    · rw [List.mem_singleton] at he0
      subst he0
      exact hfkg
  · intro e0 he0
    rw [List.mem_append] at he0
    rcases he0 with he0 | he0
    · exact g6 e0 he0
    · rw [List.mem_singleton] at he0
      subst he0
      exact ⟨hfks, hfkt⟩

theorem goodState_deleteGraph {st : DBState} {gid : Nat} {st' : DBState}
    (hg : GoodState st) (h : deleteGraph st gid = some st') : GoodState st' := by
  obtain ⟨hex, hrestrict, rfl⟩ := deleteGraph_eq_some h
  obtain ⟨g1, g2, g3, g4, g5, g6⟩ := hg
  refine ⟨?_, ?_, ?_, ?_, ?_, ?_⟩
  · exact List.Nodup.sublist (List.Sublist.map _ (List.filter_sublist _)) g1
  · exact List.Nodup.sublist (List.Sublist.map _ (List.filter_sublist _)) g2
  · exact List.Nodup.sublist (List.Sublist.map _ (List.filter_sublist _)) g3
  · intro n hn
    rw [List.mem_filter, decide_eq_true_eq] at hn
    obtain ⟨hn, hng⟩ := hn
    obtain ⟨g0, hg0, heq⟩ := g4 n hn
    refine ⟨g0, ?_, heq⟩
    rw [List.mem_filter, decide_eq_true_eq]
    exact ⟨hg0, by rw [heq]; exact hng⟩
  · intro e he
    rw [List.mem_filter, decide_eq_true_eq] at he
    obtain ⟨hee, heg⟩ := he
    obtain ⟨g0, hg0, heq⟩ := g5 e hee
    refine ⟨g0, ?_, heq⟩
    rw [List.mem_filter, decide_eq_true_eq]
    exact ⟨hg0, by rw [heq]; exact heg⟩
  · intro e he
    have hef : e ∈ st.edges.filter (fun e0 : Edge => decide (e0.graph_id ≠ gid)) := he
    rw [List.mem_filter, decide_eq_true_eq] at he
    obtain ⟨hee, heg⟩ := he
    obtain ⟨⟨ns, hns, hseq⟩, ⟨nt, hnt, hteq⟩⟩ := g6 e hee
    constructor
    · refine ⟨ns, ?_, hseq⟩
      rw [List.mem_filter, decide_eq_true_eq]
      refine ⟨hns, fun hnsg => ?_⟩
      exact (hrestrict e hef ns hns hnsg).1 hseq.symm
    · refine ⟨nt, ?_, hteq⟩
      rw [List.mem_filter, decide_eq_true_eq]
      refine ⟨hnt, fun hntg => ?_⟩
      exact (hrestrict e hef nt hnt hntg).2 hteq.symm

theorem goodState_deleteNode {st : DBState} {nid : Nat} {st' : DBState}
    (hg : GoodState st) (h : deleteNode st nid = some st') : GoodState st' := by
  obtain ⟨hex, hnoedge, rfl⟩ := deleteNode_eq_some h
  obtain ⟨g1, g2, g3, g4, g5, g6⟩ := hg
  refine ⟨g1, ?_, g3, ?_, g5, ?_⟩
  · exact List.Nodup.sublist (List.Sublist.map _ (List.filter_sublist _)) g2
  · intro n hn
    rw [List.mem_filter, decide_eq_true_eq] at hn
    exact g4 n hn.1
  · intro e he
    obtain ⟨⟨ns, hns, hseq⟩, ⟨nt, hnt, hteq⟩⟩ := g6 e he
    constructor
    · refine ⟨ns, ?_, hseq⟩
      rw [List.mem_filter, decide_eq_true_eq]
      refine ⟨hns, fun hnsid => ?_⟩
      exact (hnoedge e he).1 (hnsid ▸ hseq.symm)
    · refine ⟨nt, ?_, hteq⟩
      rw [List.mem_filter, decide_eq_true_eq]
      refine ⟨hnt, fun hntid => ?_⟩
      exact (hnoedge e he).2 (hntid ▸ hteq.symm)

theorem goodState_deleteEdge {st : DBState} {eid : Nat} {st' : DBState}
    (hg : GoodState st) (h : deleteEdge st eid = some st') : GoodState st' := by
  obtain ⟨hex, rfl⟩ := deleteEdge_eq_some h
  obtain ⟨g1, g2, g3, g4, g5, g6⟩ := hg
  refine ⟨g1, g2, ?_, g4, ?_, ?_⟩
  · exact List.Nodup.sublist (List.Sublist.map _ (List.filter_sublist _)) g3
  · intro e he
    rw [List.mem_filter, decide_eq_true_eq] at he
    exact g5 e he.1
  · intro e he
    rw [List.mem_filter, decide_eq_true_eq] at he
    exact g6 e he.1

/-- Every reachable database state has distinct primary keys and fully
resolving foreign keys. -/
theorem reachable_goodState {st : DBState} (h : Reachable st) : GoodState st := by
  induction h with
  | empty => exact goodState_empty
  | step_insertGraph _ hop ih => exact goodState_insertGraph ih hop
  | step_insertNode _ hop ih => exact goodState_insertNode ih hop
  | step_insertEdge _ hop ih => exact goodState_insertEdge ih hop
  | step_deleteGraph _ hop ih => exact goodState_deleteGraph ih hop
  | step_deleteNode _ hop ih => exact goodState_deleteNode ih hop
  | step_deleteEdge _ hop ih => exact goodState_deleteEdge ih hop

/-- In a list with pairwise-distinct keys, a key that occurs at all
occurs exactly once. -/
theorem filter_key_length_eq_one {α : Type} (f : α → Nat) (l : List α) (v : Nat)
    (hn : (l.map f).Nodup) (hx : ∃ a ∈ l, f a = v) :
    (l.filter (fun a => decide (f a = v))).length = 1 := by
  induction l with
  | nil => simp at hx
  | cons a t ih =>
    simp only [List.map_cons, List.nodup_cons] at hn
    obtain ⟨ha, ht⟩ := hn
    by_cases hv : f a = v
    · have hempty : t.filter (fun x => decide (f x = v)) = [] := by
        rw [List.filter_eq_nil_iff]
        intro b hb
        simp only [decide_eq_true_eq]
        intro hbv
        exact ha (List.mem_map.2 ⟨b, hb, by rw [hbv, hv]⟩)
      rw [List.filter_cons_of_pos (by simp [hv]), hempty]
      rfl
    · rw [List.filter_cons_of_neg (by simp [hv])]
      refine ih ht ?_
      obtain ⟨b, hb, hbv⟩ := hx
      rcases List.mem_cons.1 hb with rfl | hb
      · exact absurd hbv hv
      · exact ⟨b, hb, hbv⟩

/-- The spec section 8 example state is reachable. -/
theorem reachable_stW : Reachable stW := by
  have e1 : insertGraph DBState.empty gRow = some ⟨[gRow], [], []⟩ := rfl
  have e2 : insertNode ⟨[gRow], [], []⟩ nRow1 = some ⟨[gRow], [nRow1], []⟩ := rfl
  have e3 : insertNode ⟨[gRow], [nRow1], []⟩ nRow2 =
      some ⟨[gRow], [nRow1, nRow2], []⟩ := rfl
  have e4 : insertEdge ⟨[gRow], [nRow1, nRow2], []⟩ eRow = some stW := rfl
  exact Reachable.step_insertEdge
    (Reachable.step_insertNode
      (Reachable.step_insertNode
        (Reachable.step_insertGraph Reachable.empty e1) e2) e3) e4

/-- A state containing an edge whose target node belongs to another
graph is reachable: no declared constraint stops its insertion. -/
theorem reachable_stCross : Reachable stCross := by
  have e1 : insertGraph stW gRow2 =
      some ⟨[gRow, gRow2], [nRow1, nRow2], [eRow]⟩ := rfl
  have e2 : insertNode ⟨[gRow, gRow2], [nRow1, nRow2], [eRow]⟩ nRowX =
      some ⟨[gRow, gRow2], [nRow1, nRow2, nRowX], [eRow]⟩ := rfl
  have e3 : insertEdge ⟨[gRow, gRow2], [nRow1, nRow2, nRowX], [eRow]⟩ eCross =
      some stCross := rfl
  exact Reachable.step_insertEdge
    (Reachable.step_insertNode
      (Reachable.step_insertGraph reachable_stW e1) e2) e3

/-- A state with two nodes of the same graph sharing `node_id` is
reachable: `index=True` declares no uniqueness constraint. -/
theorem reachable_stDup : Reachable stDup := by
  have e1 : insertNode stW nDup = some stDup := rfl
  exact Reachable.step_insertNode reachable_stW e1

/-! ## Claim theorems -/

/-- C1: deleting a Graph also deletes every Node and every Edge whose
`graph_id` equals the deleted Graph's id (the `cascade_delete=True`
declarations on `Graph.nodes` / `Graph.edges`), and touches no row of
another graph. -/
theorem deleteGraph_cascades (st : DBState) (gid : Nat) (st' : DBState)
    (h : deleteGraph st gid = some st') :
    (∀ n ∈ st'.nodes, n.graph_id ≠ gid) ∧
    (∀ e ∈ st'.edges, e.graph_id ≠ gid) ∧
    (∀ n ∈ st.nodes, n.graph_id ≠ gid → n ∈ st'.nodes) ∧
    (∀ e ∈ st.edges, e.graph_id ≠ gid → e ∈ st'.edges) := by
  obtain ⟨hex, hres, rfl⟩ := deleteGraph_eq_some h
  refine ⟨?_, ?_, ?_, ?_⟩
  · intro n hn
    rw [List.mem_filter, decide_eq_true_eq] at hn
    exact hn.2
  · intro e he
    rw [List.mem_filter, decide_eq_true_eq] at he
    exact he.2
  · intro n hn hng
    rw [List.mem_filter, decide_eq_true_eq]
    exact ⟨hn, hng⟩
  · intro e he heg
    rw [List.mem_filter, decide_eq_true_eq]
    exact ⟨he, heg⟩

/-- C1 witness: deleting graph 1 of the example state empties it. -/
theorem deleteGraph_cascades_witness :
    (∀ n ∈ DBState.empty.nodes, n.graph_id ≠ 1) ∧
    (∀ e ∈ DBState.empty.edges, e.graph_id ≠ 1) ∧
    (∀ n ∈ stW.nodes, n.graph_id ≠ 1 → n ∈ DBState.empty.nodes) ∧
    (∀ e ∈ stW.edges, e.graph_id ≠ 1 → e ∈ DBState.empty.edges) :=
  deleteGraph_cascades stW 1 DBState.empty rfl

/-- C6: in every reachable state, every Node and every Edge carries a
`graph_id` that matches exactly one stored Graph (foreign key
`graph_id → graphs.id` plus primary key uniqueness; the cascade on graph
deletion keeps rows from outliving their graph). -/
theorem rows_reference_exactly_one_graph (st : DBState) (h : Reachable st) :
    (∀ n ∈ st.nodes,
      (st.graphs.filter (fun g => decide (g.id = n.graph_id))).length = 1) ∧
    (∀ e ∈ st.edges,
      (st.graphs.filter (fun g => decide (g.id = e.graph_id))).length = 1) := by
  obtain ⟨g1, _, _, g4, g5, _⟩ := reachable_goodState h
  constructor
  · intro n hn
    exact filter_key_length_eq_one Graph.id st.graphs n.graph_id g1 (g4 n hn)
  · intro e he
    exact filter_key_length_eq_one Graph.id st.graphs e.graph_id g1 (g5 e he)

/-- C6 witness: in the example state every row matches exactly one graph. -/
theorem rows_reference_exactly_one_graph_witness :
    (∀ n ∈ stW.nodes,
      (stW.graphs.filter (fun g => decide (g.id = n.graph_id))).length = 1) ∧
    (∀ e ∈ stW.edges,
      (stW.graphs.filter (fun g => decide (g.id = e.graph_id))).length = 1) :=
  rows_reference_exactly_one_graph stW reachable_stW

/-- C7: a stored coordinate of any Node of any reachable state is an
exact decimal: scaled by `10^6` it is an integer (exactly 6 decimal
places) of magnitude below `10^12` (at most 12 digits), per the declared
column type `Decimal(max_digits=12, decimal_places=6)`. -/
theorem stored_coordinates_are_decimal126 (st : DBState) (hr : Reachable st) :
    ∀ n ∈ st.nodes, ∀ d : Decimal126, n.x = some d ∨ n.y = some d →
      d.toRat = (d.val : Rat) / 10 ^ 6 ∧
      (d.toRat * 10 ^ 6).den = 1 ∧ |d.toRat * 10 ^ 6| < 10 ^ 12 := by
  intro n _ d _
  have hv : d.toRat * 10 ^ 6 = (d.val : Rat) := by
    unfold Decimal126.toRat
    field_simp
  have habs : |d.val| < (10 : Int) ^ 12 := by
    rw [Int.abs_eq_natAbs]
    exact_mod_cast d.prop
  refine ⟨rfl, ?_, ?_⟩
  · rw [hv]
    exact Rat.den_intCast _
  · rw [hv, ← Int.cast_abs]
    exact_mod_cast habs

/-- C7 witness: the coordinate `1.5` of node `n1` of the example state. -/
theorem stored_coordinates_are_decimal126_witness :
    d15.toRat = (d15.val : Rat) / 10 ^ 6 ∧
    (d15.toRat * 10 ^ 6).den = 1 ∧ |d15.toRat * 10 ^ 6| < 10 ^ 12 :=
  stored_coordinates_are_decimal126 stW reachable_stW nRow1
    (by simp [stW]) d15 (Or.inl rfl)

/-- C4: pydantic rejects a graph `name` longer than 200 characters and a
`node_id` longer than 100 characters, and inputs within the declared
bounds are not rejected on length grounds. -/
theorem length_bounds_enforced (gc : GraphCreate) (gi : GraphInput)
    (nc : NodeCreate) :
    (200 < gc.name.length → gc.isValid = false) ∧
    (∀ s, gi.name = some s → 200 < s.length → gi.isValid = false) ∧
    (100 < nc.node_id.length → nc.isValid = false) ∧
    (gc.name.length ≤ 200 → gc.description.length ≤ 1000 → gc.isValid = true) ∧
    (nc.node_id.length ≤ 100 → nc.label.length ≤ 200 → nc.isValid = true) := by
  refine ⟨?_, ?_, ?_, ?_, ?_⟩
  · intro hlong
    simp only [GraphCreate.isValid, Bool.and_eq_false_iff, decide_eq_false_iff_not]
    omega
  · intro s hname hlong
    simp only [GraphInput.isValid, hname, optLenLe, Bool.and_eq_false_iff,
      decide_eq_false_iff_not]
    omega
  · intro hlong
    simp only [NodeCreate.isValid, Bool.and_eq_false_iff, decide_eq_false_iff_not]
    omega
  · intro h1 h2
    simp only [GraphCreate.isValid, Bool.and_eq_true, decide_eq_true_eq]
    omega
  · intro h1 h2
    simp only [NodeCreate.isValid, Bool.and_eq_true, decide_eq_true_eq]
    omega

set_option maxRecDepth 4000 in
/-- C4 witness: a 201-character name and a 101-character node identifier
are rejected; the example inputs pass. -/
theorem length_bounds_enforced_witness :
    GraphCreate.isValid { name := longStr 201 } = false ∧
    NodeCreate.isValid { graph_id := 1, node_id := longStr 101 } = false ∧
    GraphCreate.isValid { name := "G1" } = true ∧
    NodeCreate.isValid { graph_id := 1, node_id := "n1", label := "A" } = true :=
  ⟨(length_bounds_enforced { name := longStr 201 } GraphInput.empty
      { graph_id := 1, node_id := "n" }).1 (by decide),
   (length_bounds_enforced { name := "g" } GraphInput.empty
      { graph_id := 1, node_id := longStr 101 }).2.2.1 (by decide),
   (length_bounds_enforced { name := "G1" } GraphInput.empty
      { graph_id := 1, node_id := "n" }).2.2.2.1 (by decide) (by decide),
   (length_bounds_enforced { name := "g" } GraphInput.empty
      { graph_id := 1, node_id := "n1", label := "A" }).2.2.2.2
      (by decide) (by decide)⟩

/-- C9: a `GraphInput` with every field omitted gets the declared
defaults (`name="Untitled Graph"`, `description=""`, empty node and edge
lists, no properties) and passes validation. -/
theorem graphInput_defaults :
    GraphInput.empty.name = some "Untitled Graph" ∧
    GraphInput.empty.description = some "" ∧
    GraphInput.empty.nodes = [] ∧
    GraphInput.empty.edges = [] ∧
    GraphInput.empty.properties = none ∧
    GraphInput.empty.isValid = true :=
  ⟨rfl, rfl, rfl, rfl, rfl, rfl⟩

/-- C10: every field of `GraphUpdate`, `NodeUpdate` and `EdgeUpdate` is
optional with default `None`; applying an update with omitted fields
changes nothing, and a supplied field replaces only that field. -/
theorem update_schemas_are_partial :
    (GraphUpdate.empty.name = none ∧ GraphUpdate.empty.description = none ∧
      GraphUpdate.empty.properties = none) ∧
    (NodeUpdate.empty.label = none ∧ NodeUpdate.empty.x = none ∧
      NodeUpdate.empty.y = none ∧ NodeUpdate.empty.style = none ∧
      NodeUpdate.empty.data = none) ∧
    (EdgeUpdate.empty.label = none ∧ EdgeUpdate.empty.weight = none ∧
      EdgeUpdate.empty.style = none ∧ EdgeUpdate.empty.data = none) ∧
    (∀ g : Graph, applyGraphUpdate g GraphUpdate.empty = g) ∧
    (∀ n : NodeResponse, applyNodeUpdate n NodeUpdate.empty = n) ∧
    (∀ e : EdgeResponse, applyEdgeUpdate e EdgeUpdate.empty = e) ∧
    (∀ (g : Graph) (s : String),
      (applyGraphUpdate g { GraphUpdate.empty with name := some s }).name = s ∧
      (applyGraphUpdate g { GraphUpdate.empty with name := some s }).description
        = g.description ∧
      (applyGraphUpdate g { GraphUpdate.empty with name := some s }).properties
        = g.properties) :=
  ⟨⟨rfl, rfl, rfl⟩, ⟨rfl, rfl, rfl, rfl, rfl⟩, ⟨rfl, rfl, rfl, rfl⟩,
   fun g => rfl, fun n => rfl, fun e => rfl, fun g s => ⟨rfl, rfl, rfl⟩⟩

/-- C2 counterexample: the claimed same-graph invariant for edge
endpoints fails: `stCross` is reachable, yet the target of edge
`eCross` (recorded under graph 1) is node `nRowX` of graph 2. -/
theorem edge_same_graph_invariant_fails :
    ¬ (∀ st : DBState, Reachable st → ∀ e ∈ st.edges, ∀ n ∈ st.nodes,
        (n.id = e.source_node_id ∨ n.id = e.target_node_id) →
        n.graph_id = e.graph_id) := by
  intro hclaim
  have h := hclaim stCross reachable_stCross eCross (by simp [stCross])
    nRowX (by simp [stCross]) (Or.inr rfl)
  simp [nRowX, eCross] at h

/-- C2 amended: the schema makes `source_node_id` and `target_node_id`
reference existing Nodes in every reachable state, but it does not
require those Nodes' `graph_id` to equal the Edge's own `graph_id`: a
state with a cross-graph edge is reachable, so the same-graph rule must
be enforced by an explicit external check. -/
theorem edge_endpoints_exist_but_same_graph_unenforced (st : DBState)
    (hr : Reachable st) :
    (∀ e ∈ st.edges, (∃ n ∈ st.nodes, n.id = e.source_node_id) ∧
      (∃ n ∈ st.nodes, n.id = e.target_node_id)) ∧
    (∃ st2, Reachable st2 ∧ ∃ e ∈ st2.edges, ∃ n ∈ st2.nodes,
      n.id = e.target_node_id ∧ n.graph_id ≠ e.graph_id) := by
  refine ⟨(reachable_goodState hr).2.2.2.2.2, ?_⟩
  exact ⟨stCross, reachable_stCross, eCross, by simp [stCross],
    nRowX, by simp [stCross], rfl, by decide⟩

/-- C2 amended witness: endpoint foreign keys resolve in the example
state. -/
theorem edge_endpoints_exist_witness :
    (∀ e ∈ stW.edges, (∃ n ∈ stW.nodes, n.id = e.source_node_id) ∧
      (∃ n ∈ stW.nodes, n.id = e.target_node_id)) ∧
    (∃ st2, Reachable st2 ∧ ∃ e ∈ st2.edges, ∃ n ∈ st2.nodes,
      n.id = e.target_node_id ∧ n.graph_id ≠ e.graph_id) :=
  edge_endpoints_exist_but_same_graph_unenforced stW reachable_stW

/-- C3 counterexample: deleting node 1 of the reachable example state
does not delete its incident edge: the operation is rejected outright
(no cascade is declared on the edge endpoint foreign keys), so no
post-deletion state without the edge exists. -/
theorem node_delete_cascade_fails :
    ¬ (∀ st : DBState, Reachable st → ∀ nid : Nat,
        (∃ n ∈ st.nodes, n.id = nid) →
        ∃ st', deleteNode st nid = some st' ∧
          ∀ e ∈ st'.edges,
            e.source_node_id ≠ nid ∧ e.target_node_id ≠ nid) := by
  intro hclaim
  obtain ⟨st', hdel, _⟩ :=
    hclaim stW reachable_stW 1 ⟨nRow1, by simp [stW], rfl⟩
  have hnone : deleteNode stW 1 = none := rfl
  rw [hnone] at hdel
  exact Option.noConfusion hdel

/-- C3 amended: the edge endpoint foreign keys declare no delete
cascade: a Node referenced by any Edge cannot be deleted at all, and a
node deletion that does succeed never removes an Edge. -/
theorem node_delete_restricts_not_cascades (st : DBState) (nid : Nat) :
    ((∃ e ∈ st.edges, e.source_node_id = nid ∨ e.target_node_id = nid) →
      deleteNode st nid = none) ∧
    (∀ st', deleteNode st nid = some st' → st'.edges = st.edges) := by
  constructor
  · rintro ⟨e, he, hor⟩
    unfold deleteNode
    split_ifs with h1 h2
    · exfalso
      rcases hor with h | h
      · exact (h2 e he).1 h
      · exact (h2 e he).2 h
    · rfl
    · rfl
  · intro st' h
    obtain ⟨_, _, rfl⟩ := deleteNode_eq_some h
    rfl

/-- C3 amended witness: node 1 of the example state (endpoint of its
edge) cannot be deleted; deleting node 2 of the edgeless variant
succeeds and leaves the edge table unchanged. -/
theorem node_delete_restricts_witness :
    deleteNode stW 1 = none ∧
    (⟨[gRow], [nRow1], []⟩ : DBState).edges = stN.edges :=
  ⟨(node_delete_restricts_not_cascades stW 1).1 ⟨eRow, by simp [stW], Or.inl rfl⟩,
   (node_delete_restricts_not_cascades stN 2).2 ⟨[gRow], [nRow1], []⟩ rfl⟩

/-- C8 counterexample: per-graph uniqueness of `node_id` fails: the
reachable state `stDup` holds two nodes of graph 1 (primary keys 1 and
4) that both carry the user-facing identifier `n1`. -/
theorem node_id_unique_per_graph_fails :
    ¬ (∀ st : DBState, Reachable st → ∀ n1 ∈ st.nodes, ∀ n2 ∈ st.nodes,
        n1.graph_id = n2.graph_id → n1.node_id = n2.node_id →
        n1.id = n2.id) := by
  intro hclaim
  have h := hclaim stDup reachable_stDup nRow1 (by simp [stDup])
    nDup (by simp [stDup]) rfl rfl
  simp [nRow1, nDup] at h

/-- C8 amended: `node_id` is indexed but not unique: inserting a Node
is accepted whenever its primary key is fresh and its graph exists,
regardless of `node_id` duplication, and a reachable state holds two
distinct nodes of one graph sharing a `node_id`. -/
theorem node_id_not_unique_per_graph (st : DBState) (n : Node)
    (hpk : ¬ ∃ n0 ∈ st.nodes, n0.id = n.id)
    (hfk : ∃ g ∈ st.graphs, g.id = n.graph_id) :
    insertNode st n = some { st with nodes := st.nodes ++ [n] } ∧
    (∃ st2, Reachable st2 ∧ ∃ n1 ∈ st2.nodes, ∃ n2 ∈ st2.nodes,
      n1.id ≠ n2.id ∧ n1.graph_id = n2.graph_id ∧
      n1.node_id = n2.node_id) := by
  constructor
  · unfold insertNode
    rw [if_neg hpk, if_pos hfk]
  · exact ⟨stDup, reachable_stDup, nRow1, by simp [stDup],
      nDup, by simp [stDup], by decide, rfl, rfl⟩

/-- C8 amended witness: inserting the duplicate-identifier node into
the example state succeeds. -/
theorem node_id_not_unique_witness :
    insertNode stW nDup = some { stW with nodes := stW.nodes ++ [nDup] } ∧
    (∃ st2, Reachable st2 ∧ ∃ n1 ∈ st2.nodes, ∃ n2 ∈ st2.nodes,
      n1.id ≠ n2.id ∧ n1.graph_id = n2.graph_id ∧
      n1.node_id = n2.node_id) :=
  node_id_not_unique_per_graph stW nDup (by simp [stW, nRow1, nRow2, nDup])
    ⟨gRow, by simp [stW], rfl⟩

theorem lookupNodeId_cons_self (r : Node) (rows : List Node) (pk : Nat)
    (h : r.id = pk) : lookupNodeId (r :: rows) pk = r.node_id := by
  unfold lookupNodeId
  rw [List.find?_cons_of_pos]
  · rfl
  · simp [h]

theorem lookupNodeId_cons_of_ne (r : Node) (rows : List Node) (pk : Nat)
    (h : r.id ≠ pk) : lookupNodeId (r :: rows) pk = lookupNodeId rows pk := by
  unfold lookupNodeId
  rw [List.find?_cons_of_neg]
  simp [h]

/-- Looking up the primary key that `edgeRowOf` assigned to a node
identifier that occurs in the input recovers that identifier. -/
theorem lookupNodeId_mkNodeRows (ds : List NodeData) (s : String) :
    ∀ k : Nat, (∃ d ∈ ds, d.id = s) →
      lookupNodeId (mkNodeRows k ds)
        (k + ds.findIdx (fun d => d.id == s) + 1) = s := by
  induction ds with
  | nil =>
    intro k hx
    simp at hx
  | cons d t ih =>
    intro k hx
    by_cases hd : d.id = s
    · have hpd : (d.id == s) = true := beq_iff_eq.mpr hd
      rw [List.findIdx_cons, hpd]
      show lookupNodeId (nodeRowOf (k + 1) d :: mkNodeRows (k + 1) t)
        (k + cond true 0 (t.findIdx (fun d0 => d0.id == s) + 1) + 1) = s
      simp only [cond_true]
      rw [lookupNodeId_cons_self]
      · exact hd
      · show k + 1 = k + 0 + 1
        omega
    · have hpd : (d.id == s) = false := by
        simp [hd]
      rw [List.findIdx_cons, hpd]
      show lookupNodeId (nodeRowOf (k + 1) d :: mkNodeRows (k + 1) t)
        (k + cond false 0 (t.findIdx (fun d0 => d0.id == s) + 1) + 1) = s
      simp only [cond_false]
      rw [lookupNodeId_cons_of_ne]
      · have harith : k + (t.findIdx (fun d0 => d0.id == s) + 1) + 1
            = (k + 1) + t.findIdx (fun d0 => d0.id == s) + 1 := by omega
        rw [harith]
        refine ih (k + 1) ?_
        obtain ⟨b, hb, hbs⟩ := hx
        rcases List.mem_cons.1 hb with rfl | hb
        · exact absurd hbs hd
        · exact ⟨b, hb, hbs⟩
      · show k + 1 ≠ k + (t.findIdx (fun d0 => d0.id == s) + 1) + 1
        omega

/-- Exporting the imported node rows reproduces the user-facing
identifier, label and data map of every input node, in order. -/
theorem nodeDictView_mkNodeRows (ds : List NodeData) :
    ∀ k : Nat, ((mkNodeRows k ds).map exportNodeDict).map nodeDictView
      = ds.map nodeDataView := by
  induction ds with
  | nil =>
    intro k
    rfl
  | cons d t ih =>
    intro k
    simp only [mkNodeRows, List.map_cons]
    rw [ih (k + 1)]
    rfl

/-- Exporting the imported edge rows reproduces the user-facing
identifier, source, target, label and data map of every input edge. -/
theorem edgeDictView_mkEdgeRows (ds : List NodeData) (es : List EdgeData) :
    ∀ k : Nat,
      (∀ e ∈ es, (∃ d ∈ ds, d.id = e.source) ∧ (∃ d ∈ ds, d.id = e.target)) →
      ((mkEdgeRows ds k es).map
          (exportEdgeDict (mkNodeRows 0 ds))).map edgeDictView
        = es.map edgeDataView := by
  induction es with
  | nil =>
    intro k _
    rfl
  | cons e t ih =>
    intro k hv
    have hs := (hv e (List.mem_cons_self e t)).1
    have ht2 := (hv e (List.mem_cons_self e t)).2
    have hsrc : lookupNodeId (mkNodeRows 0 ds)
        (ds.findIdx (fun d => d.id == e.source) + 1) = e.source := by
      have h0 := lookupNodeId_mkNodeRows ds e.source 0 hs
      simpa using h0
    have htgt : lookupNodeId (mkNodeRows 0 ds)
        (ds.findIdx (fun d => d.id == e.target) + 1) = e.target := by
      have h0 := lookupNodeId_mkNodeRows ds e.target 0 ht2
      simpa using h0
    have hhead : edgeDictView
        (exportEdgeDict (mkNodeRows 0 ds) (edgeRowOf ds (k + 1) e))
        = edgeDataView e := by
      show (some (optStrJson e.id),
            some (Json.str (lookupNodeId (mkNodeRows 0 ds)
              (ds.findIdx (fun d => d.id == e.source) + 1))),
            some (Json.str (lookupNodeId (mkNodeRows 0 ds)
              (ds.findIdx (fun d => d.id == e.target) + 1))),
            some (Json.str (e.label.getD "")),
            some (Json.obj (e.data.getD []))) = edgeDataView e
      rw [hsrc, htgt]
      rfl
    simp only [mkEdgeRows, List.map_cons]
    rw [ih (k + 1) (fun e0 he0 => hv e0 (List.mem_cons_of_mem e he0)), hhead]

/-- C5: importing a valid `GraphInput` (every edge endpoint names an
input node) and exporting the resulting state reproduces the name and
description and, for every node and edge in order, the user-facing
identifiers, labels and data maps of the input. -/
theorem graphInput_roundtrip (gin : GraphInput)
    (hv : ∀ e ∈ gin.edges, (∃ d ∈ gin.nodes, d.id = e.source) ∧
      (∃ d ∈ gin.nodes, d.id = e.target)) :
    ∃ st ex, importGraph gin = some st ∧ exportGraph st = some ex ∧
      ex.name = gin.name.getD "Untitled Graph" ∧
      ex.description = gin.description.getD "" ∧
      ex.nodes.map nodeDictView = gin.nodes.map nodeDataView ∧
      ex.edges.map edgeDictView = gin.edges.map edgeDataView := by
  refine ⟨⟨[{ id := 1, name := gin.name.getD "Untitled Graph",
              description := gin.description.getD "",
              properties := gin.properties.getD [] }],
            mkNodeRows 0 gin.nodes, mkEdgeRows gin.nodes 0 gin.edges⟩,
          ⟨gin.name.getD "Untitled Graph", gin.description.getD "",
            gin.properties.getD [],
            (mkNodeRows 0 gin.nodes).map exportNodeDict,
            (mkEdgeRows gin.nodes 0 gin.edges).map
              (exportEdgeDict (mkNodeRows 0 gin.nodes))⟩,
          ?_, rfl, rfl, rfl, ?_, ?_⟩
  · unfold importGraph
    rw [if_pos hv]
  · exact nodeDictView_mkNodeRows gin.nodes 0
  · exact edgeDictView_mkEdgeRows gin.nodes gin.edges 0 hv

/-- C5 witness: the spec section 8 example round-trips. -/
theorem graphInput_roundtrip_witness :
    ∃ st ex, importGraph ginW = some st ∧ exportGraph st = some ex ∧
      ex.name = ginW.name.getD "Untitled Graph" ∧
      ex.description = ginW.description.getD "" ∧
      ex.nodes.map nodeDictView = ginW.nodes.map nodeDataView ∧
      ex.edges.map edgeDictView = ginW.edges.map edgeDataView :=
  graphInput_roundtrip ginW (by decide)
